import Mathlib

/-!
Verification of the strimzi-backup tool: a shallow embedding of its
backup/restore orchestration code (pkg/backuper, pkg/restorer, pkg/utils,
cmd) together with proofs of the specification's claims about it.

Go maps (`map[string]string`) are embedded as association lists of pairs;
a nil map is `Option.none`, an allocated map is `Option.some`.  Go's
zero-value lookup (`m[k]` returns `""` when `k` is absent) is `goMapGet`,
`delete(m, k)` is `goMapRemove`, and `m[k] = v` is `goMapSet`.
-/

/-- Errors returned by the embedded operations.  Go errors are opaque
values compared only for identity; a `String` payload is enough. -/
inductive Err where
  | apiErr (msg : String)
  | unmarshalErr
  | unknownResources (name : String)
  | nameRequired
  | fileExists (path : String)
  | timedOutErr (msg : String)
deriving Repr, DecidableEq

/-- Lookup with Go's zero-value semantics: `m[k]` is `""` when absent. -/
def goMapGet (k : String) : List (String × String) → String
  | [] => ""
  | p :: t => if p.1 = k then p.2 else goMapGet k t

/-- Go's `delete(m, k)`. -/
def goMapRemove (k : String) : List (String × String) → List (String × String)
  | [] => []
  | p :: t => if p.1 = k then goMapRemove k t else p :: goMapRemove k t

/-- Go's `m[k] = v`: replace the binding when present, add it otherwise. -/
def goMapSet (k v : String) : List (String × String) → List (String × String)
  | [] => [(k, v)]
  | p :: t => if p.1 = k then (k, v) :: t else p :: goMapSet k v t

/-- The fields of `metav1.ObjectMeta` that the tool reads or writes.
`nspace` stands for the Go field `Namespace` (a Lean keyword).  Owner
references and managed-fields entries are opaque to the tool, so their
elements are embedded as strings; timestamps are opaque integers. -/
structure ObjectMeta where
  name : String
  nspace : String
  uid : String
  resourceVersion : String
  generation : Int
  creationTimestamp : Int
  deletionTimestamp : Option Int
  labels : Option (List (String × String))
  annotations : Option (List (String × String))
  ownerReferences : List String
  managedFields : List String
deriving Repr, DecidableEq

/-- The annotation key deleted by the cleanser. -/
def lastAppliedConfigKey : String := "kubectl.kubernetes.io/last-applied-configuration"

/-- Backuper.cleanseMetadata: nils `ManagedFields` and `OwnerReferences`
and deletes the `kubectl.kubernetes.io/last-applied-configuration`
annotation when the annotation map is non-nil and maps the key to a
non-empty value.  The commented-out clearing of resource version, UID,
generation and timestamps in the source is accordingly absent here. -/
def cleanseMetadata (metadata : ObjectMeta) : ObjectMeta :=
  let m1 : ObjectMeta := { metadata with managedFields := [], ownerReferences := [] }
  match m1.annotations with
  | none => m1
  | some anns =>
      if goMapGet lastAppliedConfigKey anns ≠ "" then
        { m1 with annotations := some (goMapRemove lastAppliedConfigKey anns) }
      else
        m1

/-- The effect of `cleanseMetadata` on the annotation map alone. -/
def cleanseAnnotations : Option (List (String × String)) → Option (List (String × String))
  | none => none
  | some anns =>
      if goMapGet lastAppliedConfigKey anns ≠ "" then
        some (goMapRemove lastAppliedConfigKey anns)
      else
        some anns

/-- Go-style annotation lookup on a possibly nil map. -/
def annotationValue (k : String) (m : ObjectMeta) : String :=
  match m.annotations with
  | none => ""
  | some anns => goMapGet k anns

/-- A status condition of the primary (Kafka) resource; the Go field
`Type` is `condType` here. -/
structure Condition where
  condType : String
  status : String
deriving Repr, DecidableEq

/-- The status fields of the Kafka resource that the tool reads or
writes.  The Go `Conditions` slice can be nil, hence the `Option`. -/
structure KafkaStatus where
  conditions : Option (List Condition)
  observedGeneration : Int
  clusterId : String
deriving Repr, DecidableEq

/-- The Kafka custom resource: metadata, an opaque spec payload carried
through unchanged, and a nil-able status. -/
structure Kafka where
  metadata : ObjectMeta
  spec : String
  status : Option KafkaStatus
deriving Repr, DecidableEq

/-- The condition scan inside utils.isReady: Go's for-loop returns true
on the first `Ready=True` condition whose observed generation matches
the metadata generation, and falls through to false otherwise. -/
def readyScan (observedGeneration generation : Int) : List Condition → Bool
  | [] => false
  | c :: rest =>
      if c.condType = "Ready" ∧ c.status = "True" ∧ observedGeneration = generation then
        true
      else
        readyScan observedGeneration generation rest

/-- utils.isReady: true when the status is non-nil, its condition list is
non-nil and non-empty, and it holds a `Ready=True` condition with
`observedGeneration == generation`. -/
def isReady (k : Kafka) : Bool :=
  match k.status with
  | none => false
  | some s =>
      match s.conditions with
      | none => false
      | some conds =>
          if conds.length > 0 then
            readyScan s.observedGeneration k.metadata.generation conds
          else
            false

/-- The condition scan inside utils.isReconciliationPaused. -/
def pausedScan : List Condition → Bool
  | [] => false
  | c :: rest =>
      if c.condType = "ReconciliationPaused" ∧ c.status = "True" then
        true
      else
        pausedScan rest

/-- utils.isReconciliationPaused: true when the status is non-nil, its
condition list is non-nil and non-empty, and it holds a
`ReconciliationPaused=True` condition. -/
def isReconciliationPaused (k : Kafka) : Bool :=
  match k.status with
  | none => false
  | some s =>
      match s.conditions with
      | none => false
      | some conds =>
          if conds.length > 0 then
            pausedScan conds
          else
            false

/-- The outcomes of the condition waiters in kubernetes_utils.go.  The Go
functions return `(true, nil)` on a satisfying event, `(false, timeout
error)` when the watch context's deadline elapses, and `panic(err)` —
which aborts the whole process — when opening the watch fails.
`panicked` records that abort. -/
inductive WaitResult where
  | success
  | timedOut
  | panicked
deriving Repr, DecidableEq

/-- The for/select loop of utils.waitUntilReady over the watch events
delivered before the deadline: the first event whose resource satisfies
`isReady` yields success; exhausting the events means the deadline
elapsed first, which yields the timeout error. -/
def waitLoopReady : List Kafka → WaitResult
  | [] => .timedOut
  | e :: rest => if isReady e then .success else waitLoopReady rest

/-- utils.waitUntilReady.  `watchOpen` is the outcome of opening the
watch: an error, or the finite sequence of events the watch delivers
before the deadline.  A failed open is `panic(err)` in the source. -/
def waitUntilReady (watchOpen : Except Err (List Kafka)) : WaitResult :=
  match watchOpen with
  | .error _ => .panicked
  | .ok events => waitLoopReady events

/-- The for/select loop of utils.waitUntilReconciliationPaused. -/
def waitLoopPaused : List Kafka → WaitResult
  | [] => .timedOut
  | e :: rest => if isReconciliationPaused e then .success else waitLoopPaused rest

/-- utils.waitUntilReconciliationPaused; same shape as `waitUntilReady`
with the paused predicate. -/
def waitUntilReconciliationPaused (watchOpen : Except Err (List Kafka)) : WaitResult :=
  match watchOpen with
  | .error _ => .panicked
  | .ok events => waitLoopPaused events

/-- A dependent resource (node pool, topic, user, or secret): metadata
plus an opaque payload the restorer never inspects.  The Go types
KafkaNodePool, KafkaTopic, KafkaUser and core Secret differ only in that
payload, which the restorer carries through unchanged. -/
structure PlainResource where
  metadata : ObjectMeta
  spec : String
deriving Repr, DecidableEq

/-- What yaml.Unmarshal yields from a member's bytes: the typed content
a handler can decode, or undecodable bytes. -/
inductive Payload where
  | kafkaPayload (k : Kafka)
  | nodePoolsPayload (items : List PlainResource)
  | topicsPayload (items : List PlainResource)
  | usersPayload (items : List PlainResource)
  | secretsPayload (items : List PlainResource)
  | malformedPayload
deriving Repr, DecidableEq

/-- One archive member: the gzip header fields plus the decompressed
payload. -/
structure Member where
  name : String
  comment : String
  modTime : Int
  payload : Payload
deriving Repr, DecidableEq

/-- Modelled from the spec: the member-name constant `KafkaFilename` of
the backuper package; its defining file is not among the sources, but
the backup write path assigns the same literal `"kafka.yaml"` and the
spec's dispatch table lists it. -/
def KafkaFilename : String := "kafka.yaml"

/-- Modelled from the spec: the backuper constant `KafkaNodePoolsFilename`
(`"pools.yaml"`), as above. -/
def KafkaNodePoolsFilename : String := "pools.yaml"

/-- Modelled from the spec: the backuper constant `CaSecretsFilename`
(`"ca-secrets.yaml"`), as above. -/
def CaSecretsFilename : String := "ca-secrets.yaml"

/-- Modelled from the spec: the backuper constant `KafkaTopicsFilename`
(`"topics.yaml"`), as above. -/
def KafkaTopicsFilename : String := "topics.yaml"

/-- Modelled from the spec: the backuper constant `KafkaUsersFilename`
(`"users.yaml"`), as above. -/
def KafkaUsersFilename : String := "users.yaml"

/-- Modelled from the spec: the backuper constant `KafkaUserSecretsFilename`
(`"user-secrets.yaml"`), as above. -/
def KafkaUserSecretsFilename : String := "user-secrets.yaml"

/-- Result of a restorer run or sub-step: success, a returned error, or
a process abort (a Go panic, e.g. a nil-pointer dereference). -/
inductive RunRes where
  | ok
  | err (e : Err)
  | panicked
deriving Repr, DecidableEq

/-- The observable calls a restore run makes against the platform, in
order.  `handleMember` records that a member's dispatch branch was
entered (the per-kind "Restoring ..." log line). -/
inductive RAction where
  | handleMember (name : String)
  | createKafkaAct (k : Kafka)
  | waitPausedAct
  | updateStatusAct (k : Kafka)
  | createNodePoolAct (p : PlainResource)
  | createTopicAct (p : PlainResource)
  | createUserAct (p : PlainResource)
  | createSecretAct (p : PlainResource)
  | getKafkaAct
  | updateKafkaAct (k : Kafka)
  | waitReadyAct
deriving Repr, DecidableEq

/-- The KafkaRestorer fields the handlers read: the caller-supplied
target namespace and cluster name (Go fields `Namespace` and `Name`). -/
structure RestorerCfg where
  nspace : String
  name : String
deriving Repr, DecidableEq

/-- The external collaborators of one restore run: the typed platform
client's create/get/update/updateStatus calls and the two condition
waits.  Each is an outcome the environment chooses; the restorer only
branches on them.  `waitPaused` and `waitReady` stand for the exported
waiter entry points the restorer calls (wrappers over the embedded
`waitUntilReconciliationPaused` / `waitUntilReady` loops); `waitPaused`
yields the watched resource that satisfied the paused predicate. -/
structure RestoreEnv where
  createKafka : Kafka → Except Err Unit
  waitPaused : Except Err Kafka
  updateStatus : Kafka → Except Err Unit
  createNodePool : PlainResource → Except Err Unit
  createTopic : PlainResource → Except Err Unit
  createUser : PlainResource → Except Err Unit
  createSecret : PlainResource → Except Err Unit
  getKafka : Except Err Kafka
  updateKafka : Kafka → Except Err Unit
  waitReady : Except Err Unit

/-- The pause-reconciliation annotation key. -/
def pauseKey : String := "strimzi.io/pause-reconciliation"

/-- Set the pause-reconciliation annotation, creating the map when it is
nil — the if/else on `Annotations == nil` in restoreKafka and in
unpauseKafkaClusterAndWaitForReadiness. -/
def setPauseAnnotations (v : String) (m : ObjectMeta) : ObjectMeta :=
  match m.annotations with
  | none => { m with annotations := some [(pauseKey, v)] }
  | some anns => { m with annotations := some (goMapSet pauseKey v anns) }

/-- The resource KafkaRestorer.restoreKafka creates: metadata cleansed,
namespace and name overwritten with the target values, and the pause
annotation forced to "true". -/
def pausedKafkaResource (cfg : RestorerCfg) (kafka : Kafka) : Kafka :=
  let m := cleanseMetadata kafka.metadata
  let m := { m with nspace := cfg.nspace, name := cfg.name }
  { kafka with metadata := setPauseAnnotations "true" m }

/-- KafkaRestorer.restoreKafka: unmarshal, cleanse/rewrite/pause, create,
wait for the paused reconciliation to be confirmed, then restore the
cluster ID from the captured status when it is present and non-empty
(its absence is only a warning).  The status update dereferences the
paused resource's status pointer, so a nil status there is a panic. -/
def restoreKafka (cfg : RestorerCfg) (env : RestoreEnv) (resource : Payload) :
    List RAction × RunRes :=
  match resource with
  | .kafkaPayload kafka =>
      let k' := pausedKafkaResource cfg kafka
      match env.createKafka k' with
      | .error e => ([.createKafkaAct k'], .err e)
      | .ok _ =>
          match env.waitPaused with
          | .error e => ([.createKafkaAct k', .waitPausedAct], .err e)
          | .ok pausedKafka =>
              match kafka.status with
              | some s =>
                  if s.clusterId ≠ "" then
                    match pausedKafka.status with
                    | some ps =>
                        let upd : Kafka :=
                          { pausedKafka with status := some { ps with clusterId := s.clusterId } }
                        match env.updateStatus upd with
                        | .error e =>
                            ([.createKafkaAct k', .waitPausedAct, .updateStatusAct upd], .err e)
                        | .ok _ =>
                            ([.createKafkaAct k', .waitPausedAct, .updateStatusAct upd], .ok)
                    | none => ([.createKafkaAct k', .waitPausedAct], .panicked)
                  else
                    ([.createKafkaAct k', .waitPausedAct], .ok)
              | none => ([.createKafkaAct k', .waitPausedAct], .ok)
  | _ => ([], .err .unmarshalErr)

/-- KafkaRestorer.updateNamespaceAndClusterName: overwrite the namespace
with the target namespace and the `strimzi.io/cluster` label with the
target name, creating the label map when it is nil. -/
def updateNamespaceAndClusterName (cfg : RestorerCfg) (m : ObjectMeta) : ObjectMeta :=
  let m := { m with nspace := cfg.nspace }
  match m.labels with
  | none => { m with labels := some [("strimzi.io/cluster", cfg.name)] }
  | some ls => { m with labels := some (goMapSet "strimzi.io/cluster" cfg.name ls) }

/-- One list element as the restorer creates it: metadata cleansed, then
namespace and cluster label rewritten. -/
def retargetResource (cfg : RestorerCfg) (x : PlainResource) : PlainResource :=
  { x with metadata := updateNamespaceAndClusterName cfg (cleanseMetadata x.metadata) }

/-- The per-element loop shared (textually repeated) by the four list
handlers: cleanse, rewrite, create, and return on the first failing
create. -/
def restoreItems (cfg : RestorerCfg) (create : PlainResource → Except Err Unit)
    (act : PlainResource → RAction) : List PlainResource → List RAction × RunRes
  | [] => ([], .ok)
  | item :: rest =>
      let item' := retargetResource cfg item
      match create item' with
      | .error e => ([act item'], .err e)
      | .ok _ =>
          let (tr, res) := restoreItems cfg create act rest
          (act item' :: tr, res)

/-- KafkaRestorer.restoreKafkaNodePools. -/
def restoreKafkaNodePools (cfg : RestorerCfg) (env : RestoreEnv) (resources : Payload) :
    List RAction × RunRes :=
  match resources with
  | .nodePoolsPayload items => restoreItems cfg env.createNodePool RAction.createNodePoolAct items
  | _ => ([], .err .unmarshalErr)

/-- KafkaRestorer.restoreKafkaTopics. -/
def restoreKafkaTopics (cfg : RestorerCfg) (env : RestoreEnv) (resources : Payload) :
    List RAction × RunRes :=
  match resources with
  | .topicsPayload items => restoreItems cfg env.createTopic RAction.createTopicAct items
  | _ => ([], .err .unmarshalErr)

/-- KafkaRestorer.restoreKafkaUsers. -/
def restoreKafkaUsers (cfg : RestorerCfg) (env : RestoreEnv) (resources : Payload) :
    List RAction × RunRes :=
  match resources with
  | .usersPayload items => restoreItems cfg env.createUser RAction.createUserAct items
  | _ => ([], .err .unmarshalErr)

/-- KafkaRestorer.restoreSecrets, used for both the CA-secret and the
user-secret members. -/
def restoreSecrets (cfg : RestorerCfg) (env : RestoreEnv) (resources : Payload) :
    List RAction × RunRes :=
  match resources with
  | .secretsPayload items => restoreItems cfg env.createSecret RAction.createSecretAct items
  | _ => ([], .err .unmarshalErr)

/-- The switch on the gzip member name inside KafkaRestorer.RestoreKafka,
in the source's case order; an unrecognized name is the fatal
unknown-resources error. -/
def dispatchMember (cfg : RestorerCfg) (env : RestoreEnv) (m : Member) :
    List RAction × RunRes :=
  if m.name = KafkaFilename then
    let (tr, res) := restoreKafka cfg env m.payload
    (RAction.handleMember m.name :: tr, res)
  else if m.name = CaSecretsFilename then
    let (tr, res) := restoreSecrets cfg env m.payload
    (RAction.handleMember m.name :: tr, res)
  else if m.name = KafkaNodePoolsFilename then
    let (tr, res) := restoreKafkaNodePools cfg env m.payload
    (RAction.handleMember m.name :: tr, res)
  else if m.name = KafkaUsersFilename then
    let (tr, res) := restoreKafkaUsers cfg env m.payload
    (RAction.handleMember m.name :: tr, res)
  else if m.name = KafkaTopicsFilename then
    let (tr, res) := restoreKafkaTopics cfg env m.payload
    (RAction.handleMember m.name :: tr, res)
  else if m.name = KafkaUserSecretsFilename then
    let (tr, res) := restoreSecrets cfg env m.payload
    (RAction.handleMember m.name :: tr, res)
  else
    ([], .err (.unknownResources m.name))

/-- The member loop of KafkaRestorer.RestoreKafka: process each member in
order and return on the first handler that does not succeed. -/
def runMembers (cfg : RestorerCfg) (env : RestoreEnv) : List Member → List RAction × RunRes
  | [] => ([], .ok)
  | m :: rest =>
      let (tr, res) := dispatchMember cfg env m
      match res with
      | .ok =>
          let (tr2, res2) := runMembers cfg env rest
          (tr ++ tr2, res2)
      | .err e => (tr, .err e)
      | .panicked => (tr, .panicked)

/-- The resource written by the unpause step: the re-fetched resource
with the pause annotation forced to "false". -/
def unpausedKafkaResource (kafka : Kafka) : Kafka :=
  { kafka with metadata := setPauseAnnotations "false" kafka.metadata }

/-- KafkaRestorer.unpauseKafkaClusterAndWaitForReadiness: re-fetch the
primary resource; when paused, flip the annotation, update and wait for
readiness; when already ready, only warn; otherwise wait for readiness
directly. -/
def unpauseKafkaClusterAndWaitForReadiness (cfg : RestorerCfg) (env : RestoreEnv) :
    List RAction × RunRes :=
  match env.getKafka with
  | .error e => ([.getKafkaAct], .err e)
  | .ok kafka =>
      if isReconciliationPaused kafka then
        let unpausedKafka := unpausedKafkaResource kafka
        match env.updateKafka unpausedKafka with
        | .error e => ([.getKafkaAct, .updateKafkaAct unpausedKafka], .err e)
        | .ok _ =>
            match env.waitReady with
            | .error e =>
                ([.getKafkaAct, .updateKafkaAct unpausedKafka, .waitReadyAct], .err e)
            | .ok _ =>
                ([.getKafkaAct, .updateKafkaAct unpausedKafka, .waitReadyAct], .ok)
      else if isReady kafka then
        ([.getKafkaAct], .ok)
      else
        match env.waitReady with
        | .error e => ([.getKafkaAct, .waitReadyAct], .err e)
        | .ok _ => ([.getKafkaAct, .waitReadyAct], .ok)

/-- KafkaRestorer.RestoreKafka: the member loop followed, only when every
member succeeded, by the unpause-and-wait completion step. -/
def RestoreKafka (cfg : RestorerCfg) (env : RestoreEnv) (members : List Member) :
    List RAction × RunRes :=
  let (tr, res) := runMembers cfg env members
  match res with
  | .ok =>
      let (tr2, res2) := unpauseKafkaClusterAndWaitForReadiness cfg env
      (tr ++ tr2, res2)
  | .err e => (tr, .err e)
  | .panicked => (tr, .panicked)

/-- The archive members a backup run emits, with the payload each one
carries (the gzip member's name is determined by the emitting step). -/
inductive BAction where
  | wroteKafka (k : Kafka)
  | wroteNodePools (items : List PlainResource)
  | wroteCaSecrets (items : List PlainResource)
  | wroteTopics (items : List PlainResource)
  | wroteUsers (items : List PlainResource)
  | wroteUserSecrets (items : List PlainResource)
deriving Repr, DecidableEq

/-- The gzip `Name` header each backup step assigns before writing. -/
def memberNameOf : BAction → String
  | .wroteKafka _ => "kafka.yaml"
  | .wroteNodePools _ => "pools.yaml"
  | .wroteCaSecrets _ => "ca-secrets.yaml"
  | .wroteTopics _ => "topics.yaml"
  | .wroteUsers _ => "users.yaml"
  | .wroteUserSecrets _ => "user-secrets.yaml"

/-- The member names of a backup trace, in emission order. -/
def writtenNames (tr : List BAction) : List String := tr.map memberNameOf

/-- The canonical member order a full backup run emits. -/
def canonicalMemberNames : List String :=
  ["kafka.yaml", "pools.yaml", "ca-secrets.yaml", "topics.yaml", "users.yaml", "user-secrets.yaml"]

/-- The Backuper fields the backup steps read: target identity plus the
boolean that gates metadata cleansing.  `metadataCleansing` holds the
value read from the `--skip-metadata-cleansing` flag (NewBackuper stores
that flag's value here unchanged). -/
structure BackuperCfg where
  nspace : String
  name : String
  metadataCleansing : Bool
deriving Repr, DecidableEq

/-- The external collaborators of one backup run: each step's platform
list/get call and the serialize-and-write of its member (marshal, gzip
write and member close collapsed into one outcome, since the step aborts
on whichever of them fails first). -/
structure BackupEnv where
  getKafka : Except Err Kafka
  listNodePools : Except Err (List PlainResource)
  listCaSecrets : Except Err (List PlainResource)
  listTopics : Except Err (List PlainResource)
  listUsers : Except Err (List PlainResource)
  listUserSecrets : Except Err (List PlainResource)
  writeKafka : Except Err Unit
  writeNodePools : Except Err Unit
  writeCaSecrets : Except Err Unit
  writeTopics : Except Err Unit
  writeUsers : Except Err Unit
  writeUserSecrets : Except Err Unit

/-- Cleansing of every element of a listed collection (the per-kind
cleanse helpers of KafkaBackuper). -/
def cleanseItems (items : List PlainResource) : List PlainResource :=
  items.map (fun item => { item with metadata := cleanseMetadata item.metadata })

/-- KafkaBackuper.BackupKafka: fetch the primary resource (hard failure
when absent), cleanse its metadata when `metadataCleansing` holds, and
write member "kafka.yaml". -/
def BackupKafka (cfg : BackuperCfg) (env : BackupEnv) : List BAction × RunRes :=
  match env.getKafka with
  | .error e => ([], .err e)
  | .ok resource =>
      let resource :=
        if cfg.metadataCleansing then
          { resource with metadata := cleanseMetadata resource.metadata }
        else
          resource
      match env.writeKafka with
      | .error e => ([], .err e)
      | .ok _ => ([.wroteKafka resource], .ok)

/-- KafkaBackuper.BackupKafkaNodePools: list by cluster label, optionally
cleanse each element, write member "pools.yaml". -/
def BackupKafkaNodePools (cfg : BackuperCfg) (env : BackupEnv) : List BAction × RunRes :=
  match env.listNodePools with
  | .error e => ([], .err e)
  | .ok resources =>
      let resources := if cfg.metadataCleansing then cleanseItems resources else resources
      match env.writeNodePools with
      | .error e => ([], .err e)
      | .ok _ => ([.wroteNodePools resources], .ok)

/-- KafkaBackuper.BackupCaSecrets: list by component-type and cluster
labels, optionally cleanse, write member "ca-secrets.yaml". -/
def BackupCaSecrets (cfg : BackuperCfg) (env : BackupEnv) : List BAction × RunRes :=
  match env.listCaSecrets with
  | .error e => ([], .err e)
  | .ok resources =>
      let resources := if cfg.metadataCleansing then cleanseItems resources else resources
      match env.writeCaSecrets with
      | .error e => ([], .err e)
      | .ok _ => ([.wroteCaSecrets resources], .ok)

/-- KafkaBackuper.BackupKafkaTopics. -/
def BackupKafkaTopics (cfg : BackuperCfg) (env : BackupEnv) : List BAction × RunRes :=
  match env.listTopics with
  | .error e => ([], .err e)
  | .ok resources =>
      let resources := if cfg.metadataCleansing then cleanseItems resources else resources
      match env.writeTopics with
      | .error e => ([], .err e)
      | .ok _ => ([.wroteTopics resources], .ok)

/-- KafkaBackuper.BackupKafkaUsers. -/
def BackupKafkaUsers (cfg : BackuperCfg) (env : BackupEnv) : List BAction × RunRes :=
  match env.listUsers with
  | .error e => ([], .err e)
  | .ok resources =>
      let resources := if cfg.metadataCleansing then cleanseItems resources else resources
      match env.writeUsers with
      | .error e => ([], .err e)
      | .ok _ => ([.wroteUsers resources], .ok)

/-- KafkaBackuper.BackupUserSecrets. -/
def BackupUserSecrets (cfg : BackuperCfg) (env : BackupEnv) : List BAction × RunRes :=
  match env.listUserSecrets with
  | .error e => ([], .err e)
  | .ok resources =>
      let resources := if cfg.metadataCleansing then cleanseItems resources else resources
      match env.writeUserSecrets with
      | .error e => ([], .err e)
      | .ok _ => ([.wroteUserSecrets resources], .ok)

/-- Sequential composition of already-evaluated steps, aborting on the
first step that does not succeed (the cmd layer exits on the first
error). -/
def seqRun : List (List BAction × RunRes) → List BAction × RunRes
  | [] => ([], .ok)
  | (tr, res) :: rest =>
      match res with
      | .ok =>
          let (tr2, res2) := seqRun rest
          (tr ++ tr2, res2)
      | .err e => (tr, .err e)
      | .panicked => (tr, .panicked)

/-- The Run function of cmd/backup_kafka.go: the six backup steps in
their fixed order, aborting the run on the first failing step.  No flag
is consulted between steps: every step is always attempted. -/
def backupKafkaCmdRun (cfg : BackuperCfg) (env : BackupEnv) : List BAction × RunRes :=
  seqRun
    [BackupKafka cfg env,
     BackupKafkaNodePools cfg env,
     BackupCaSecrets cfg env,
     BackupKafkaTopics cfg env,
     BackupKafkaUsers cfg env,
     BackupUserSecrets cfg env]

/-- A file system as the backup file opener sees it: path/contents
pairs. -/
abbrev FileSys : Type := List (String × String)

/-- Whether a file exists at `path`. -/
def fileAt (fs : FileSys) (path : String) : Bool :=
  fs.any (fun p => p.1 == path)

/-- os.OpenFile with O_CREATE|O_EXCL|O_WRONLY: fails without touching
anything when the path exists, otherwise creates an empty file. -/
def openFileExclCreate (fs : FileSys) (path : String) :
    Except Err FileSys :=
  if fileAt fs path then .error (.fileExists path) else .ok (fs ++ [(path, "")])

/-- The command-line inputs NewBackuper reads: the `--name` flag, the
`--filename` flag, the `--skip-metadata-cleansing` flag's boolean value,
and the timestamp used for the default file name when `--filename` is
empty. -/
structure BackuperFlags where
  name : String
  filenameFlag : String
  skipMetadataCleansing : Bool
  nowStamp : String
deriving Repr, DecidableEq

/-- The backup file name NewBackuper computes: the `--filename` value, or
`backup-<timestamp>.gz` when that flag is empty. -/
def backupFileNameOf (flags : BackuperFlags) : String :=
  if flags.filenameFlag = "" then "backup-" ++ flags.nowStamp ++ ".gz" else flags.filenameFlag

/-- backuper.NewBackuper: require `--name`, create the platform clients,
read the cleansing flag, then open the backup file with exclusive-create
semantics; any failure returns the error and leaves the file system as
it was.  `clients` is the outcome of the client construction. -/
def NewBackuper (flags : BackuperFlags) (clients : Except Err String) (fs : FileSys) :
    Except Err BackuperCfg × FileSys :=
  if flags.name = "" then (.error .nameRequired, fs)
  else
    match clients with
    | .error e => (.error e, fs)
    | .ok nspace =>
        match openFileExclCreate fs (backupFileNameOf flags) with
        | .error e => (.error e, fs)
        | .ok fs' =>
            (.ok { nspace := nspace, name := flags.name,
                   metadataCleansing := flags.skipMetadataCleansing }, fs')

/-- Lift a platform call's outcome into a run result. -/
def resOf : Except Err Unit → RunRes
  | .ok _ => .ok
  | .error e => .err e

/-- Go's `k.Status.ClusterId` read with zero-value semantics over the
nil-able status pointer. -/
def statusClusterId (k : Kafka) : String :=
  match k.status with
  | none => ""
  | some s => s.clusterId

/-- Whether a restore action is the create of the primary resource. -/
def isCreateKafka : RAction → Bool
  | .createKafkaAct _ => true
  | _ => false

/-- How many creates of the primary resource a trace contains. -/
def countCreateKafka (tr : List RAction) : Nat := (tr.filter isCreateKafka).length

/-- The concatenated traces of a member list's handlers. -/
def flatTraces (cfg : RestorerCfg) (env : RestoreEnv) : List Member → List RAction
  | [] => []
  | m :: rest => (dispatchMember cfg env m).1 ++ flatTraces cfg env rest

/-- A metadata sample with every cleansable field populated. -/
def sampleMeta : ObjectMeta :=
  { name := "my-cluster", nspace := "kafka", uid := "uid-1", resourceVersion := "42",
    generation := 3, creationTimestamp := 100, deletionTimestamp := none,
    labels := some [("app", "kafka")],
    annotations := some [("kubectl.kubernetes.io/last-applied-configuration", "old"), ("keep", "me")],
    ownerReferences := ["owner-1"], managedFields := ["manager-1"] }

/-- A primary resource that is ready: `Ready=True` with matching
generations, and a captured cluster ID. -/
def readyKafka : Kafka :=
  { metadata := sampleMeta, spec := "kafka-spec",
    status := some { conditions := some [{ condType := "Ready", status := "True" }],
                     observedGeneration := 3, clusterId := "abc-123" } }

/-- A primary resource whose reconciliation is paused. -/
def pausedKafkaSample : Kafka :=
  { metadata := sampleMeta, spec := "kafka-spec",
    status := some { conditions := some [{ condType := "ReconciliationPaused", status := "True" }],
                     observedGeneration := 3, clusterId := "abc-123" } }

/-- A primary resource with no status at all: neither paused nor ready. -/
def bareKafka : Kafka :=
  { metadata := sampleMeta, spec := "kafka-spec", status := none }

/-- A dependent-resource sample. -/
def samplePool : PlainResource := { metadata := sampleMeta, spec := "pool-spec" }

/-- A second dependent-resource sample. -/
def samplePoolB : PlainResource :=
  { metadata := { sampleMeta with name := "pool-b" }, spec := "pool-b-spec" }

/-- A restore environment where every platform call succeeds and the
paused wait observes `pausedKafkaSample`. -/
def envRestoreOk : RestoreEnv :=
  { createKafka := fun _ => .ok (), waitPaused := .ok pausedKafkaSample,
    updateStatus := fun _ => .ok (), createNodePool := fun _ => .ok (),
    createTopic := fun _ => .ok (), createUser := fun _ => .ok (),
    createSecret := fun _ => .ok (), getKafka := .ok pausedKafkaSample,
    updateKafka := fun _ => .ok (), waitReady := .ok () }

/-- Like `envRestoreOk` but every node-pool create is rejected. -/
def envPoolCreateFails : RestoreEnv :=
  { envRestoreOk with createNodePool := fun _ => .error (.apiErr "pools create failed") }

/-- A restore environment whose re-fetch returns the ready resource. -/
def envRestoreReady : RestoreEnv :=
  { envRestoreOk with getKafka := .ok readyKafka }

/-- A restore environment whose re-fetch returns a resource that is
neither paused nor ready. -/
def envRestoreBare : RestoreEnv :=
  { envRestoreOk with getKafka := .ok bareKafka }

/-- A backup environment where every platform call and write succeeds. -/
def envBackupOk : BackupEnv :=
  { getKafka := .ok readyKafka, listNodePools := .ok [samplePool],
    listCaSecrets := .ok [], listTopics := .ok [], listUsers := .ok [],
    listUserSecrets := .ok [], writeKafka := .ok (), writeNodePools := .ok (),
    writeCaSecrets := .ok (), writeTopics := .ok (), writeUsers := .ok (),
    writeUserSecrets := .ok () }

/-- The restorer configuration used by the concrete witnesses. -/
def cfgW : RestorerCfg := { nspace := "target-ns", name := "target-name" }

/-- The backuper configuration used by the concrete witnesses (cleansing
disabled, as with the flag at its default). -/
def cfgB : BackuperCfg := { nspace := "kafka", name := "my-cluster", metadataCleansing := false }

/-- The backuper configuration with cleansing enabled. -/
def cfgBCleanse : BackuperCfg := { cfgB with metadataCleansing := true }

/-- An archive of three members — the primary resource, the node pools
and the topics — as in the spec's abort scenario. -/
def memberKafka : Member :=
  { name := "kafka.yaml", comment := "Kafka cluster", modTime := 0,
    payload := .kafkaPayload readyKafka }

/-- The pools member of the abort scenario. -/
def memberPools : Member :=
  { name := "pools.yaml", comment := "List of Kafka Node Pools", modTime := 0,
    payload := .nodePoolsPayload [samplePool] }

/-- The topics member of the abort scenario. -/
def memberTopics : Member :=
  { name := "topics.yaml", comment := "List of Kafka Topics", modTime := 0,
    payload := .topicsPayload [] }

/-- A member whose name is outside the dispatch table. -/
def memberUnknown : Member :=
  { name := "extra.yaml", comment := "unexpected", modTime := 0,
    payload := .malformedPayload }

/-- Command-line inputs for the witnesses (no cleansing, explicit file
name). -/
def flagsW : BackuperFlags :=
  { name := "my-cluster", filenameFlag := "backup.gz", skipMetadataCleansing := false,
    nowStamp := "2025-01-01-00-00-00" }

/-- A file system that already holds the backup path. -/
def fsWithBackup : FileSys := [("backup.gz", "precious bytes")]

/-- The status of `readyKafka`, named for the witnesses. -/
def readyStatusW : KafkaStatus :=
  { conditions := some [{ condType := "Ready", status := "True" }],
    observedGeneration := 3, clusterId := "abc-123" }

/-- The status of `pausedKafkaSample`, named for the witnesses. -/
def pausedStatusW : KafkaStatus :=
  { conditions := some [{ condType := "ReconciliationPaused", status := "True" }],
    observedGeneration := 3, clusterId := "abc-123" }

theorem cleanseMetadata_eq (x : ObjectMeta) :
    cleanseMetadata x =
      { x with managedFields := [], ownerReferences := [],
               annotations := cleanseAnnotations x.annotations } := by
  unfold cleanseMetadata cleanseAnnotations
  cases hx : x.annotations with
  | none => simp [hx]
  | some anns =>
      by_cases hg : goMapGet lastAppliedConfigKey anns ≠ "" <;> simp [hx, hg]

theorem goMapGet_goMapRemove (k : String) (l : List (String × String)) :
    goMapGet k (goMapRemove k l) = "" := by
  induction l with
  | nil => rfl
  | cons p t ih =>
      by_cases h : p.1 = k
      · simpa [goMapRemove, h] using ih
      · simpa [goMapRemove, goMapGet, h] using ih

theorem goMapGet_goMapRemove_ne (k k' : String) (l : List (String × String))
    (h : k' ≠ k) : goMapGet k' (goMapRemove k l) = goMapGet k' l := by
  induction l with
  | nil => rfl
  | cons p t ih =>
      by_cases hp : p.1 = k
      · have hkk' : ¬ k = k' := fun hc => h hc.symm
        simp [goMapRemove, goMapGet, hp, hkk', ih]
      · by_cases hq : p.1 = k'
        · simp [goMapRemove, goMapGet, hp, hq, h]
        · simp [goMapRemove, goMapGet, hp, hq, ih]

theorem cleanseAnnotations_idem (a : Option (List (String × String))) :
    cleanseAnnotations (cleanseAnnotations a) = cleanseAnnotations a := by
  cases a with
  | none => rfl
  | some anns =>
      by_cases hg : goMapGet lastAppliedConfigKey anns ≠ ""
      · simp [cleanseAnnotations, hg, goMapGet_goMapRemove]
      · simp [cleanseAnnotations, hg]

/-- C6: the metadata cleanser is idempotent: for every resource metadata
value `x`, `cleanse (cleanse x) = cleanse x`. -/
theorem cleanseMetadata_idempotent (x : ObjectMeta) :
    cleanseMetadata (cleanseMetadata x) = cleanseMetadata x := by
  simp [cleanseMetadata_eq, cleanseAnnotations_idem]

theorem cleanseAnnotations_lastApplied (a : Option (List (String × String))) :
    (match cleanseAnnotations a with
     | none => ""
     | some anns => goMapGet lastAppliedConfigKey anns) = "" := by
  cases a with
  | none => rfl
  | some anns =>
      by_cases hg : goMapGet lastAppliedConfigKey anns ≠ ""
      · simp [cleanseAnnotations, hg, goMapGet_goMapRemove]
      · push_neg at hg
        simp [cleanseAnnotations, hg]

theorem cleanseAnnotations_other (a : Option (List (String × String)))
    (k : String) (hk : k ≠ lastAppliedConfigKey) :
    (match cleanseAnnotations a with
     | none => ""
     | some anns => goMapGet k anns) =
    (match a with
     | none => ""
     | some anns => goMapGet k anns) := by
  cases a with
  | none => rfl
  | some anns =>
      by_cases hg : goMapGet lastAppliedConfigKey anns ≠ ""
      · simp [cleanseAnnotations, hg, goMapGet_goMapRemove_ne _ _ _ hk]
      · simp [cleanseAnnotations, hg]

theorem cleanseAnnotations_none (a : Option (List (String × String))) :
    cleanseAnnotations a = none ↔ a = none := by
  cases a with
  | none => simp [cleanseAnnotations]
  | some anns =>
      by_cases hg : goMapGet lastAppliedConfigKey anns ≠ "" <;>
        simp [cleanseAnnotations, hg]

/-- C7: the cleanser clears exactly the managed-fields records, the owner
references and the last-applied-configuration annotation, and leaves
every other metadata field unchanged: resource version, UID, generation,
creation/deletion timestamps, name, namespace, labels, the nil-ness of
the annotation map, and the value of every other annotation key. -/
theorem cleanseMetadata_frame (x : ObjectMeta) :
    (cleanseMetadata x).managedFields = [] ∧
    (cleanseMetadata x).ownerReferences = [] ∧
    annotationValue lastAppliedConfigKey (cleanseMetadata x) = "" ∧
    (cleanseMetadata x).name = x.name ∧
    (cleanseMetadata x).nspace = x.nspace ∧
    (cleanseMetadata x).uid = x.uid ∧
    (cleanseMetadata x).resourceVersion = x.resourceVersion ∧
    (cleanseMetadata x).generation = x.generation ∧
    (cleanseMetadata x).creationTimestamp = x.creationTimestamp ∧
    (cleanseMetadata x).deletionTimestamp = x.deletionTimestamp ∧
    (cleanseMetadata x).labels = x.labels ∧
    ((cleanseMetadata x).annotations = none ↔ x.annotations = none) ∧
    (∀ k : String, k ≠ lastAppliedConfigKey →
      annotationValue k (cleanseMetadata x) = annotationValue k x) := by
  refine ⟨?_, ?_, ?_, ?_, ?_, ?_, ?_, ?_, ?_, ?_, ?_, ?_, ?_⟩
  · simp [cleanseMetadata_eq]
  · simp [cleanseMetadata_eq]
  · simpa [cleanseMetadata_eq, annotationValue]
      using cleanseAnnotations_lastApplied x.annotations
  · simp [cleanseMetadata_eq]
  · simp [cleanseMetadata_eq]
  · simp [cleanseMetadata_eq]
  · simp [cleanseMetadata_eq]
  · simp [cleanseMetadata_eq]
  · simp [cleanseMetadata_eq]
  · simp [cleanseMetadata_eq]
  · simp [cleanseMetadata_eq]
  · simpa [cleanseMetadata_eq] using cleanseAnnotations_none x.annotations
  · intro k hk
    simpa [cleanseMetadata_eq, annotationValue]
      using cleanseAnnotations_other x.annotations k hk

theorem waitLoopReady_success (pre : List Kafka) (e : Kafka) (post : List Kafka)
    (hpre : ∀ x ∈ pre, isReady x = false) (he : isReady e = true) :
    waitLoopReady (pre ++ e :: post) = .success := by
  induction pre with
  | nil => simp [waitLoopReady, he]
  | cons x t ih =>
      have hx : isReady x = false := hpre x (by simp)
      have ht : ∀ y ∈ t, isReady y = false := fun y hy => hpre y (by simp [hy])
      simp [waitLoopReady, hx, ih ht]

theorem waitLoopReady_timedOut (events : List Kafka)
    (h : ∀ x ∈ events, isReady x = false) :
    waitLoopReady events = .timedOut := by
  induction events with
  | nil => rfl
  | cons x t ih =>
      have hx : isReady x = false := h x (by simp)
      have ht : ∀ y ∈ t, isReady y = false := fun y hy => h y (by simp [hy])
      simp [waitLoopReady, hx, ih ht]

theorem waitLoopPaused_success (pre : List Kafka) (e : Kafka) (post : List Kafka)
    (hpre : ∀ x ∈ pre, isReconciliationPaused x = false)
    (he : isReconciliationPaused e = true) :
    waitLoopPaused (pre ++ e :: post) = .success := by
  induction pre with
  | nil => simp [waitLoopPaused, he]
  | cons x t ih =>
      have hx : isReconciliationPaused x = false := hpre x (by simp)
      have ht : ∀ y ∈ t, isReconciliationPaused y = false :=
        fun y hy => hpre y (by simp [hy])
      simp [waitLoopPaused, hx, ih ht]

theorem waitLoopPaused_timedOut (events : List Kafka)
    (h : ∀ x ∈ events, isReconciliationPaused x = false) :
    waitLoopPaused events = .timedOut := by
  induction events with
  | nil => rfl
  | cons x t ih =>
      have hx : isReconciliationPaused x = false := h x (by simp)
      have ht : ∀ y ∈ t, isReconciliationPaused y = false :=
        fun y hy => h y (by simp [hy])
      simp [waitLoopPaused, hx, ih ht]

/-- C5, counterexample: when opening the watch fails, the waiters do not
return the failure to the caller — the source calls `panic(err)`, which
aborts the process.  The only returned outcomes of these functions are
success and the timeout error, and a failed watch open produces
neither. -/
theorem waiters_panic_on_watch_open_failure :
    waitUntilReady (.error (.apiErr "watch open failed")) = .panicked ∧
    waitUntilReconciliationPaused (.error (.apiErr "watch open failed")) = .panicked ∧
    waitUntilReady (.error (.apiErr "watch open failed")) ≠ .success ∧
    waitUntilReady (.error (.apiErr "watch open failed")) ≠ .timedOut ∧
    waitUntilReconciliationPaused (.error (.apiErr "watch open failed")) ≠ .success ∧
    waitUntilReconciliationPaused (.error (.apiErr "watch open failed")) ≠ .timedOut := by
  refine ⟨rfl, rfl, ?_, ?_, ?_, ?_⟩ <;> decide

/-- C5, amended: over every sequence of watch events, each waiter returns
success on the first event satisfying its predicate and returns the
timeout error exactly when the deadline elapses (the event sequence ends)
with no satisfying event; but a failure to open the watch panics —
aborting the process — instead of being returned to the caller. -/
theorem waiters_first_event_or_timeout :
    (∀ (pre : List Kafka) (e : Kafka) (post : List Kafka),
       (∀ x ∈ pre, isReady x = false) → isReady e = true →
       waitUntilReady (.ok (pre ++ e :: post)) = .success) ∧
    (∀ events : List Kafka, (∀ x ∈ events, isReady x = false) →
       waitUntilReady (.ok events) = .timedOut) ∧
    (∀ err : Err, waitUntilReady (.error err) = .panicked) ∧
    (∀ (pre : List Kafka) (e : Kafka) (post : List Kafka),
       (∀ x ∈ pre, isReconciliationPaused x = false) →
       isReconciliationPaused e = true →
       waitUntilReconciliationPaused (.ok (pre ++ e :: post)) = .success) ∧
    (∀ events : List Kafka, (∀ x ∈ events, isReconciliationPaused x = false) →
       waitUntilReconciliationPaused (.ok events) = .timedOut) ∧
    (∀ err : Err, waitUntilReconciliationPaused (.error err) = .panicked) := by
  refine ⟨?_, ?_, ?_, ?_, ?_, ?_⟩
  · intro pre e post hpre he
    simpa [waitUntilReady] using waitLoopReady_success pre e post hpre he
  · intro events h
    simpa [waitUntilReady] using waitLoopReady_timedOut events h
  · intro err
    rfl
  · intro pre e post hpre he
    simpa [waitUntilReconciliationPaused] using waitLoopPaused_success pre e post hpre he
  · intro events h
    simpa [waitUntilReconciliationPaused] using waitLoopPaused_timedOut events h
  · intro err
    rfl

/-- C5, witness: the amended waiter theorem applied at concrete inputs —
an event stream whose second event is ready succeeds, a stream with no
ready event times out, and a single paused event satisfies the paused
waiter. -/
theorem waiters_first_event_or_timeout_witness :
    waitUntilReady (.ok [bareKafka, readyKafka]) = .success ∧
    waitUntilReady (.ok [bareKafka]) = .timedOut ∧
    waitUntilReconciliationPaused (.ok [pausedKafkaSample]) = .success := by
  refine ⟨?_, ?_, ?_⟩
  · exact waiters_first_event_or_timeout.1 [bareKafka] readyKafka []
      (by intro x hx; simp at hx; subst hx; decide) (by decide)
  · exact waiters_first_event_or_timeout.2.1 [bareKafka]
      (by intro x hx; simp at hx; subst hx; decide)
  · exact waiters_first_event_or_timeout.2.2.2.1 [] pausedKafkaSample []
      (by intro x hx; simp at hx) (by decide)

theorem goMapGet_goMapSet (k v : String) (l : List (String × String)) :
    goMapGet k (goMapSet k v l) = v := by
  induction l with
  | nil => simp [goMapSet, goMapGet]
  | cons p t ih =>
      by_cases hp : p.1 = k
      · simp [goMapSet, goMapGet, hp]
      · simp [goMapSet, goMapGet, hp, ih]

theorem annotationValue_setPauseAnnotations (v : String) (m : ObjectMeta) :
    annotationValue pauseKey (setPauseAnnotations v m) = v := by
  cases hm : m.annotations with
  | none => simp [setPauseAnnotations, annotationValue, hm, goMapGet]
  | some anns => simp [setPauseAnnotations, annotationValue, hm, goMapGet_goMapSet]

theorem setPauseAnnotations_isSome (v : String) (m : ObjectMeta) :
    (setPauseAnnotations v m).annotations.isSome = true := by
  cases hm : m.annotations with
  | none => simp [setPauseAnnotations, hm]
  | some anns => simp [setPauseAnnotations, hm]

theorem setPauseAnnotations_frame (v : String) (m : ObjectMeta) :
    (setPauseAnnotations v m).name = m.name ∧
    (setPauseAnnotations v m).nspace = m.nspace ∧
    (setPauseAnnotations v m).managedFields = m.managedFields ∧
    (setPauseAnnotations v m).ownerReferences = m.ownerReferences := by
  cases hm : m.annotations with
  | none => simp [setPauseAnnotations, hm]
  | some anns => simp [setPauseAnnotations, hm]

/-- C4: after all members are consumed the completion step re-fetches the
primary resource and branches three ways: paused — flip the pause
annotation to "false", update, then wait with the ready predicate;
already ready — nothing further than the warning; neither — wait with
the ready predicate without updating. -/
theorem unpause_completion_branches :
    ∀ (cfg : RestorerCfg) (env : RestoreEnv) (kafka : Kafka),
      env.getKafka = .ok kafka →
      (isReconciliationPaused kafka = true →
         annotationValue pauseKey (unpausedKafkaResource kafka).metadata = "false" ∧
         (env.updateKafka (unpausedKafkaResource kafka) = .ok () →
            unpauseKafkaClusterAndWaitForReadiness cfg env =
              ([.getKafkaAct, .updateKafkaAct (unpausedKafkaResource kafka), .waitReadyAct],
               resOf env.waitReady))) ∧
      (isReconciliationPaused kafka = false → isReady kafka = true →
         unpauseKafkaClusterAndWaitForReadiness cfg env = ([.getKafkaAct], .ok)) ∧
      (isReconciliationPaused kafka = false → isReady kafka = false →
         unpauseKafkaClusterAndWaitForReadiness cfg env =
           ([.getKafkaAct, .waitReadyAct], resOf env.waitReady)) := by
  intro cfg env kafka hget
  refine ⟨?_, ?_, ?_⟩
  · intro hpaused
    refine ⟨?_, ?_⟩
    · simp [unpausedKafkaResource, annotationValue_setPauseAnnotations]
    · intro hupd
      cases hw : env.waitReady with
      | error e =>
          simp [unpauseKafkaClusterAndWaitForReadiness, hget, hpaused, hupd, hw, resOf]
      | ok u =>
          simp [unpauseKafkaClusterAndWaitForReadiness, hget, hpaused, hupd, hw, resOf]
  · intro hnp hready
    simp [unpauseKafkaClusterAndWaitForReadiness, hget, hnp, hready]
  · intro hnp hnready
    cases hw : env.waitReady with
    | error e =>
        simp [unpauseKafkaClusterAndWaitForReadiness, hget, hnp, hnready, hw, resOf]
    | ok u =>
        simp [unpauseKafkaClusterAndWaitForReadiness, hget, hnp, hnready, hw, resOf]

/-- C4, witness: the completion-branch theorem applied to three concrete
environments — one whose re-fetch sees a paused resource, one that sees
a ready resource, and one that sees a resource that is neither. -/
theorem unpause_completion_branches_witness :
    unpauseKafkaClusterAndWaitForReadiness cfgW envRestoreOk =
      ([.getKafkaAct, .updateKafkaAct (unpausedKafkaResource pausedKafkaSample), .waitReadyAct],
       .ok) ∧
    unpauseKafkaClusterAndWaitForReadiness cfgW envRestoreReady = ([.getKafkaAct], .ok) ∧
    unpauseKafkaClusterAndWaitForReadiness cfgW envRestoreBare =
      ([.getKafkaAct, .waitReadyAct], .ok) := by
  refine ⟨?_, ?_, ?_⟩
  · exact ((unpause_completion_branches cfgW envRestoreOk pausedKafkaSample rfl).1
      (by decide)).2 rfl
  · exact (unpause_completion_branches cfgW envRestoreReady readyKafka rfl).2.1
      (by decide) (by decide)
  · exact (unpause_completion_branches cfgW envRestoreBare bareKafka rfl).2.2
      (by decide) (by decide)

theorem status_isSome_of_paused (k : Kafka) (h : isReconciliationPaused k = true) :
    ∃ ps, k.status = some ps := by
  cases hs : k.status with
  | none => simp [isReconciliationPaused, hs] at h
  | some s => exact ⟨s, rfl⟩

theorem pausedKafkaResource_fields (cfg : RestorerCfg) (kafka : Kafka) :
    (pausedKafkaResource cfg kafka).metadata.name = cfg.name ∧
    (pausedKafkaResource cfg kafka).metadata.nspace = cfg.nspace ∧
    (pausedKafkaResource cfg kafka).metadata.managedFields = [] ∧
    (pausedKafkaResource cfg kafka).metadata.ownerReferences = [] ∧
    (pausedKafkaResource cfg kafka).metadata.annotations.isSome = true ∧
    annotationValue pauseKey (pausedKafkaResource cfg kafka).metadata = "true" := by
  have hf := setPauseAnnotations_frame "true"
    { cleanseMetadata kafka.metadata with nspace := cfg.nspace, name := cfg.name }
  refine ⟨?_, ?_, ?_, ?_, ?_, ?_⟩
  · simpa [pausedKafkaResource] using hf.1
  · simpa [pausedKafkaResource] using hf.2.1
  · simpa [pausedKafkaResource, cleanseMetadata_eq] using hf.2.2.1
  · simpa [pausedKafkaResource, cleanseMetadata_eq] using hf.2.2.2
  · simpa [pausedKafkaResource] using setPauseAnnotations_isSome "true"
      { cleanseMetadata kafka.metadata with nspace := cfg.nspace, name := cfg.name }
  · simpa [pausedKafkaResource] using annotationValue_setPauseAnnotations "true"
      { cleanseMetadata kafka.metadata with nspace := cfg.nspace, name := cfg.name }

theorem restoreKafka_trace_shape (cfg : RestorerCfg) (env : RestoreEnv) (kafka : Kafka) :
    ∃ rest, (restoreKafka cfg env (.kafkaPayload kafka)).1 =
        .createKafkaAct (pausedKafkaResource cfg kafka) :: rest ∧
      ∀ a ∈ rest, isCreateKafka a = false := by
  cases hc : env.createKafka (pausedKafkaResource cfg kafka) with
  | error e => exact ⟨[], by simp [restoreKafka, hc], by simp⟩
  | ok u =>
      cases hw : env.waitPaused with
      | error e =>
          exact ⟨[.waitPausedAct], by simp [restoreKafka, hc, hw],
            by simp [isCreateKafka]⟩
      | ok pk =>
          cases hs : kafka.status with
          | none =>
              exact ⟨[.waitPausedAct], by simp [restoreKafka, hc, hw, hs],
                by simp [isCreateKafka]⟩
          | some s =>
              by_cases hid : s.clusterId ≠ ""
              · cases hps : pk.status with
                | none =>
                    exact ⟨[.waitPausedAct], by simp [restoreKafka, hc, hw, hs, hid, hps],
                      by simp [isCreateKafka]⟩
                | some ps =>
                    refine ⟨[.waitPausedAct,
                      .updateStatusAct { pk with status := some { ps with clusterId := s.clusterId } }],
                      ?_, by simp [isCreateKafka]⟩
                    cases hu : env.updateStatus
                        { pk with status := some { ps with clusterId := s.clusterId } } with
                    | error e => simp [restoreKafka, hc, hw, hs, hid, hps, hu]
                    | ok u2 => simp [restoreKafka, hc, hw, hs, hid, hps, hu]
              · exact ⟨[.waitPausedAct], by simp [restoreKafka, hc, hw, hs, hid],
                  by simp [isCreateKafka]⟩

theorem countCreateKafka_cons_one (a : RAction) (rest : List RAction)
    (ha : isCreateKafka a = true) (hrest : ∀ x ∈ rest, isCreateKafka x = false) :
    countCreateKafka (a :: rest) = 1 := by
  have : rest.filter isCreateKafka = [] := by
    rw [List.filter_eq_nil_iff]
    intro x hx
    simp [hrest x hx]
  simp [countCreateKafka, List.filter, ha, this]

/-- C1: restorePrimary cleanses the archived primary resource's metadata,
overwrites namespace and name with the target values, forces the pause
annotation to "true" (creating the annotation map when nil), issues
exactly one create; after the paused wait succeeds, a non-empty captured
cluster ID is written back verbatim through a status-subresource update,
and an absent or empty one is only warned about — the run still
succeeds.  The hypothesis on `env.waitPaused` is the paused waiter's
contract: a resource it yields satisfies the paused predicate. -/
theorem restorePrimary_behavior :
    ∀ (cfg : RestorerCfg) (env : RestoreEnv) (kafka : Kafka),
      (∀ pk, env.waitPaused = .ok pk → isReconciliationPaused pk = true) →
      ((pausedKafkaResource cfg kafka).metadata.name = cfg.name ∧
       (pausedKafkaResource cfg kafka).metadata.nspace = cfg.nspace ∧
       (pausedKafkaResource cfg kafka).metadata.managedFields = [] ∧
       (pausedKafkaResource cfg kafka).metadata.ownerReferences = [] ∧
       (pausedKafkaResource cfg kafka).metadata.annotations.isSome = true ∧
       annotationValue pauseKey (pausedKafkaResource cfg kafka).metadata = "true") ∧
      (restoreKafka cfg env (.kafkaPayload kafka)).1.head? =
        some (.createKafkaAct (pausedKafkaResource cfg kafka)) ∧
      countCreateKafka (restoreKafka cfg env (.kafkaPayload kafka)).1 = 1 ∧
      (∀ pk, env.waitPaused = .ok pk → ∃ ps, pk.status = some ps) ∧
      (∀ pk s ps, env.createKafka (pausedKafkaResource cfg kafka) = .ok () →
         env.waitPaused = .ok pk → kafka.status = some s → s.clusterId ≠ "" →
         pk.status = some ps →
         statusClusterId { pk with status := some { ps with clusterId := s.clusterId } } =
           s.clusterId ∧
         restoreKafka cfg env (.kafkaPayload kafka) =
           ([.createKafkaAct (pausedKafkaResource cfg kafka), .waitPausedAct,
             .updateStatusAct { pk with status := some { ps with clusterId := s.clusterId } }],
            resOf (env.updateStatus
              { pk with status := some { ps with clusterId := s.clusterId } }))) ∧
      (∀ pk, env.createKafka (pausedKafkaResource cfg kafka) = .ok () →
         env.waitPaused = .ok pk → statusClusterId kafka = "" →
         restoreKafka cfg env (.kafkaPayload kafka) =
           ([.createKafkaAct (pausedKafkaResource cfg kafka), .waitPausedAct], .ok)) := by
  intro cfg env kafka hwait
  obtain ⟨rest, hrest, hnone⟩ := restoreKafka_trace_shape cfg env kafka
  refine ⟨pausedKafkaResource_fields cfg kafka, ?_, ?_, ?_, ?_, ?_⟩
  · simp [hrest]
  · rw [hrest]
    exact countCreateKafka_cons_one _ rest (by simp [isCreateKafka]) hnone
  · intro pk hpk
    exact status_isSome_of_paused pk (hwait pk hpk)
  · intro pk s ps hc hw hs hid hps
    refine ⟨by simp [statusClusterId], ?_⟩
    cases hu : env.updateStatus { pk with status := some { ps with clusterId := s.clusterId } } with
    | error e => simp [restoreKafka, hc, hw, hs, hid, hps, hu, resOf]
    | ok u2 => simp [restoreKafka, hc, hw, hs, hid, hps, hu, resOf]
  · intro pk hc hw hid
    cases hs : kafka.status with
    | none => simp [restoreKafka, hc, hw, hs]
    | some s =>
        have hsid : s.clusterId = "" := by
          simpa [statusClusterId, hs] using hid
        simp [restoreKafka, hc, hw, hs, hsid]

/-- C1, witness: the restorePrimary theorem applied to a concrete archive
resource carrying cluster ID "abc-123" and an all-success environment:
the handler issues the create of the cleansed, retargeted, paused
resource, then the status update carrying "abc-123" verbatim, and
succeeds. -/
theorem restorePrimary_behavior_witness :
    restoreKafka cfgW envRestoreOk (.kafkaPayload readyKafka) =
      ([.createKafkaAct (pausedKafkaResource cfgW readyKafka), .waitPausedAct,
        .updateStatusAct
          { pausedKafkaSample with
            status := some { pausedStatusW with clusterId := "abc-123" } }], .ok) := by
  have h := (restorePrimary_behavior cfgW envRestoreOk readyKafka
      (by intro pk hpk; cases hpk; decide)).2.2.2.2.1
    pausedKafkaSample readyStatusW pausedStatusW
    rfl rfl rfl (by decide) rfl
  exact h.2

theorem runMembers_ok_append (cfg : RestorerCfg) (env : RestoreEnv)
    (pre rest : List Member)
    (h : ∀ p ∈ pre, (dispatchMember cfg env p).2 = .ok) :
    runMembers cfg env (pre ++ rest) =
      (flatTraces cfg env pre ++ (runMembers cfg env rest).1,
       (runMembers cfg env rest).2) := by
  induction pre with
  | nil => simp [flatTraces]
  | cons m t ih =>
      have hm : (dispatchMember cfg env m).2 = .ok := h m (by simp)
      have ht : ∀ p ∈ t, (dispatchMember cfg env p).2 = .ok :=
        fun p hp => h p (by simp [hp])
      rcases hd : dispatchMember cfg env m with ⟨tr, res⟩
      have hres : res = .ok := by
        simpa [hd] using hm
      subst hres
      simp [runMembers, hd, flatTraces, ih ht]

theorem runMembers_abort (cfg : RestorerCfg) (env : RestoreEnv)
    (pre : List Member) (m : Member) (post : List Member) (e : Err)
    (hpre : ∀ p ∈ pre, (dispatchMember cfg env p).2 = .ok)
    (hm : (dispatchMember cfg env m).2 = .err e) :
    runMembers cfg env (pre ++ m :: post) =
      (flatTraces cfg env pre ++ (dispatchMember cfg env m).1, .err e) := by
  rw [runMembers_ok_append cfg env pre (m :: post) hpre]
  rcases hd : dispatchMember cfg env m with ⟨tr, res⟩
  have hres : res = .err e := by
    simpa [hd] using hm
  subst hres
  simp [runMembers, hd]

theorem RestoreKafka_abort (cfg : RestorerCfg) (env : RestoreEnv)
    (pre : List Member) (m : Member) (post : List Member) (e : Err)
    (hpre : ∀ p ∈ pre, (dispatchMember cfg env p).2 = .ok)
    (hm : (dispatchMember cfg env m).2 = .err e) :
    RestoreKafka cfg env (pre ++ m :: post) =
      (flatTraces cfg env pre ++ (dispatchMember cfg env m).1, .err e) := by
  simp [RestoreKafka, runMembers_abort cfg env pre m post e hpre hm]

theorem restoreItems_abort (cfg : RestorerCfg)
    (create : PlainResource → Except Err Unit) (act : PlainResource → RAction)
    (ipre : List PlainResource) (x : PlainResource) (ipost : List PlainResource) (e : Err)
    (hpre : ∀ y ∈ ipre, create (retargetResource cfg y) = .ok ())
    (hx : create (retargetResource cfg x) = .error e) :
    restoreItems cfg create act (ipre ++ x :: ipost) =
      (ipre.map (fun y => act (retargetResource cfg y)) ++ [act (retargetResource cfg x)],
       .err e) := by
  induction ipre with
  | nil => simp [restoreItems, hx]
  | cons y t ih =>
      have hy : create (retargetResource cfg y) = .ok () := hpre y (by simp)
      have ht : ∀ z ∈ t, create (retargetResource cfg z) = .ok () :=
        fun z hz => hpre z (by simp [hz])
      simp [restoreItems, hy, ih ht]

/-- C2: the restore run stops at the first failing create.  First part:
when every member before `m` dispatches successfully and `m`'s handler
returns an error, the whole run's trace is exactly the traces of the
members up to and including `m` — no later member's handler is entered,
the completion step never runs, and the run returns that first error.
Second part, inside one member: when the create of a node-pool element
fails, the handler's trace ends at that element — no later element of
the same member is created. -/
theorem restore_aborts_on_first_failing_create :
    (∀ (cfg : RestorerCfg) (env : RestoreEnv) (pre : List Member) (m : Member)
       (post : List Member) (e : Err),
       (∀ p ∈ pre, (dispatchMember cfg env p).2 = .ok) →
       (dispatchMember cfg env m).2 = .err e →
       RestoreKafka cfg env (pre ++ m :: post) =
         (flatTraces cfg env pre ++ (dispatchMember cfg env m).1, .err e)) ∧
    (∀ (cfg : RestorerCfg) (env : RestoreEnv) (ipre : List PlainResource)
       (x : PlainResource) (ipost : List PlainResource) (e : Err),
       (∀ y ∈ ipre, env.createNodePool (retargetResource cfg y) = .ok ()) →
       env.createNodePool (retargetResource cfg x) = .error e →
       restoreKafkaNodePools cfg env (.nodePoolsPayload (ipre ++ x :: ipost)) =
         (ipre.map (fun y => .createNodePoolAct (retargetResource cfg y)) ++
            [.createNodePoolAct (retargetResource cfg x)], .err e)) := by
  constructor
  · exact RestoreKafka_abort
  · intro cfg env ipre x ipost e hpre hx
    simpa [restoreKafkaNodePools] using
      restoreItems_abort cfg env.createNodePool RAction.createNodePoolAct
        ipre x ipost e hpre hx

/-- C2, witness: the abort theorem applied to the spec's scenario — the
archive [kafka.yaml, pools.yaml, topics.yaml] under an environment whose
node-pool create fails.  The run returns the pools-stage error, and the
topics member's handler is never entered: its dispatch marker is not in
the trace. -/
theorem restore_aborts_on_first_failing_create_witness :
    RestoreKafka cfgW envPoolCreateFails [memberKafka, memberPools, memberTopics] =
      (flatTraces cfgW envPoolCreateFails [memberKafka] ++
         (dispatchMember cfgW envPoolCreateFails memberPools).1,
       .err (.apiErr "pools create failed")) ∧
    RAction.handleMember "topics.yaml" ∉
      (RestoreKafka cfgW envPoolCreateFails [memberKafka, memberPools, memberTopics]).1 := by
  have h := restore_aborts_on_first_failing_create.1 cfgW envPoolCreateFails
    [memberKafka] memberPools [memberTopics] (.apiErr "pools create failed")
    (by intro p hp; simp at hp; subst hp; decide) (by decide)
  refine ⟨h, ?_⟩
  decide

theorem dispatchMember_unknown (cfg : RestorerCfg) (env : RestoreEnv) (m : Member)
    (h : m.name ∉ [KafkaFilename, CaSecretsFilename, KafkaNodePoolsFilename,
      KafkaUsersFilename, KafkaTopicsFilename, KafkaUserSecretsFilename]) :
    dispatchMember cfg env m = ([], .err (.unknownResources m.name)) := by
  simp only [List.mem_cons, List.mem_singleton, not_or] at h
  obtain ⟨h1, h2, h3, h4, h5, h6, _⟩ := h
  simp [dispatchMember, h1, h2, h3, h4, h5, h6]

/-- C9: when a member's name is outside the fixed dispatch set, the run
returns the unknown-content error the moment that member is reached: the
run's whole trace is exactly the traces of the members before it, so no
later member is processed and the completion/unpause step never runs. -/
theorem restore_unknown_member_aborts :
    ∀ (cfg : RestorerCfg) (env : RestoreEnv) (pre : List Member) (m : Member)
      (post : List Member),
      (∀ p ∈ pre, (dispatchMember cfg env p).2 = .ok) →
      m.name ∉ [KafkaFilename, CaSecretsFilename, KafkaNodePoolsFilename,
        KafkaUsersFilename, KafkaTopicsFilename, KafkaUserSecretsFilename] →
      RestoreKafka cfg env (pre ++ m :: post) =
        (flatTraces cfg env pre, .err (.unknownResources m.name)) := by
  intro cfg env pre m post hpre hname
  have hd := dispatchMember_unknown cfg env m hname
  have habort := RestoreKafka_abort cfg env pre m post (.unknownResources m.name) hpre
    (by simp [hd])
  simpa [hd] using habort

/-- C9, witness: the unknown-member theorem applied to an archive whose
second member is named "extra.yaml": the run stops there with the
unknown-resources error, after processing only the first member, and
never reaches the completion step (no re-fetch action in the trace). -/
theorem restore_unknown_member_aborts_witness :
    RestoreKafka cfgW envRestoreOk [memberKafka, memberUnknown, memberTopics] =
      (flatTraces cfgW envRestoreOk [memberKafka],
       .err (.unknownResources "extra.yaml")) ∧
    RAction.getKafkaAct ∉
      (RestoreKafka cfgW envRestoreOk [memberKafka, memberUnknown, memberTopics]).1 := by
  have h := restore_unknown_member_aborts cfgW envRestoreOk
    [memberKafka] memberUnknown [memberTopics]
    (by intro p hp; simp at hp; subst hp; decide) (by decide)
  refine ⟨h, ?_⟩
  decide

theorem BackupKafka_cases (cfg : BackuperCfg) (env : BackupEnv) :
    (∃ e, BackupKafka cfg env = ([], .err e)) ∨
    (∃ a, BackupKafka cfg env = ([a], .ok) ∧ memberNameOf a = "kafka.yaml") := by
  cases h1 : env.getKafka with
  | error e => exact .inl ⟨e, by simp [BackupKafka, h1]⟩
  | ok r =>
      cases h2 : env.writeKafka with
      | error e => exact .inl ⟨e, by simp [BackupKafka, h1, h2]⟩
      | ok u =>
          exact .inr ⟨.wroteKafka (if cfg.metadataCleansing then
              { r with metadata := cleanseMetadata r.metadata } else r),
            by simp [BackupKafka, h1, h2], by simp [memberNameOf]⟩

theorem BackupKafkaNodePools_cases (cfg : BackuperCfg) (env : BackupEnv) :
    (∃ e, BackupKafkaNodePools cfg env = ([], .err e)) ∨
    (∃ a, BackupKafkaNodePools cfg env = ([a], .ok) ∧ memberNameOf a = "pools.yaml") := by
  cases h1 : env.listNodePools with
  | error e => exact .inl ⟨e, by simp [BackupKafkaNodePools, h1]⟩
  | ok r =>
      cases h2 : env.writeNodePools with
      | error e => exact .inl ⟨e, by simp [BackupKafkaNodePools, h1, h2]⟩
      | ok u =>
          exact .inr ⟨.wroteNodePools (if cfg.metadataCleansing then cleanseItems r else r),
            by simp [BackupKafkaNodePools, h1, h2], by simp [memberNameOf]⟩

theorem BackupCaSecrets_cases (cfg : BackuperCfg) (env : BackupEnv) :
    (∃ e, BackupCaSecrets cfg env = ([], .err e)) ∨
    (∃ a, BackupCaSecrets cfg env = ([a], .ok) ∧ memberNameOf a = "ca-secrets.yaml") := by
  cases h1 : env.listCaSecrets with
  | error e => exact .inl ⟨e, by simp [BackupCaSecrets, h1]⟩
  | ok r =>
      cases h2 : env.writeCaSecrets with
      | error e => exact .inl ⟨e, by simp [BackupCaSecrets, h1, h2]⟩
      | ok u =>
          exact .inr ⟨.wroteCaSecrets (if cfg.metadataCleansing then cleanseItems r else r),
            by simp [BackupCaSecrets, h1, h2], by simp [memberNameOf]⟩

theorem BackupKafkaTopics_cases (cfg : BackuperCfg) (env : BackupEnv) :
    (∃ e, BackupKafkaTopics cfg env = ([], .err e)) ∨
    (∃ a, BackupKafkaTopics cfg env = ([a], .ok) ∧ memberNameOf a = "topics.yaml") := by
  cases h1 : env.listTopics with
  | error e => exact .inl ⟨e, by simp [BackupKafkaTopics, h1]⟩
  | ok r =>
      cases h2 : env.writeTopics with
      | error e => exact .inl ⟨e, by simp [BackupKafkaTopics, h1, h2]⟩
      | ok u =>
          exact .inr ⟨.wroteTopics (if cfg.metadataCleansing then cleanseItems r else r),
            by simp [BackupKafkaTopics, h1, h2], by simp [memberNameOf]⟩

theorem BackupKafkaUsers_cases (cfg : BackuperCfg) (env : BackupEnv) :
    (∃ e, BackupKafkaUsers cfg env = ([], .err e)) ∨
    (∃ a, BackupKafkaUsers cfg env = ([a], .ok) ∧ memberNameOf a = "users.yaml") := by
  cases h1 : env.listUsers with
  | error e => exact .inl ⟨e, by simp [BackupKafkaUsers, h1]⟩
  | ok r =>
      cases h2 : env.writeUsers with
      | error e => exact .inl ⟨e, by simp [BackupKafkaUsers, h1, h2]⟩
      | ok u =>
          exact .inr ⟨.wroteUsers (if cfg.metadataCleansing then cleanseItems r else r),
            by simp [BackupKafkaUsers, h1, h2], by simp [memberNameOf]⟩

theorem BackupUserSecrets_cases (cfg : BackuperCfg) (env : BackupEnv) :
    (∃ e, BackupUserSecrets cfg env = ([], .err e)) ∨
    (∃ a, BackupUserSecrets cfg env = ([a], .ok) ∧ memberNameOf a = "user-secrets.yaml") := by
  cases h1 : env.listUserSecrets with
  | error e => exact .inl ⟨e, by simp [BackupUserSecrets, h1]⟩
  | ok r =>
      cases h2 : env.writeUserSecrets with
      | error e => exact .inl ⟨e, by simp [BackupUserSecrets, h1, h2]⟩
      | ok u =>
          exact .inr ⟨.wroteUserSecrets (if cfg.metadataCleansing then cleanseItems r else r),
            by simp [BackupUserSecrets, h1, h2], by simp [memberNameOf]⟩

theorem backupRun_characterization (cfg : BackuperCfg) (env : BackupEnv) :
    (∃ k, writtenNames (backupKafkaCmdRun cfg env).1 = canonicalMemberNames.take k) ∧
    ((backupKafkaCmdRun cfg env).2 = .ok →
       writtenNames (backupKafkaCmdRun cfg env).1 = canonicalMemberNames) := by
  rcases BackupKafka_cases cfg env with ⟨e, h1⟩ | ⟨a1, h1, hn1⟩
  · refine ⟨⟨0, ?_⟩, ?_⟩
    · unfold backupKafkaCmdRun
      rw [h1]
      simp [seqRun, writtenNames, canonicalMemberNames]
    · intro hok
      unfold backupKafkaCmdRun at hok
      rw [h1] at hok
      simp [seqRun] at hok
  · rcases BackupKafkaNodePools_cases cfg env with ⟨e, h2⟩ | ⟨a2, h2, hn2⟩
    · refine ⟨⟨1, ?_⟩, ?_⟩
      · unfold backupKafkaCmdRun
        rw [h1, h2]
        simp [seqRun, writtenNames, hn1, canonicalMemberNames]
      · intro hok
        unfold backupKafkaCmdRun at hok
        rw [h1, h2] at hok
        simp [seqRun] at hok
    · rcases BackupCaSecrets_cases cfg env with ⟨e, h3⟩ | ⟨a3, h3, hn3⟩
      · refine ⟨⟨2, ?_⟩, ?_⟩
        · unfold backupKafkaCmdRun
          rw [h1, h2, h3]
          simp [seqRun, writtenNames, hn1, hn2, canonicalMemberNames]
        · intro hok
          unfold backupKafkaCmdRun at hok
          rw [h1, h2, h3] at hok
          simp [seqRun] at hok
      · rcases BackupKafkaTopics_cases cfg env with ⟨e, h4⟩ | ⟨a4, h4, hn4⟩
        · refine ⟨⟨3, ?_⟩, ?_⟩
          · unfold backupKafkaCmdRun
            rw [h1, h2, h3, h4]
            simp [seqRun, writtenNames, hn1, hn2, hn3, canonicalMemberNames]
          · intro hok
            unfold backupKafkaCmdRun at hok
            rw [h1, h2, h3, h4] at hok
            simp [seqRun] at hok
        · rcases BackupKafkaUsers_cases cfg env with ⟨e, h5⟩ | ⟨a5, h5, hn5⟩
          · refine ⟨⟨4, ?_⟩, ?_⟩
            · unfold backupKafkaCmdRun
              rw [h1, h2, h3, h4, h5]
              simp [seqRun, writtenNames, hn1, hn2, hn3, hn4, canonicalMemberNames]
            · intro hok
              unfold backupKafkaCmdRun at hok
              rw [h1, h2, h3, h4, h5] at hok
              simp [seqRun] at hok
          · rcases BackupUserSecrets_cases cfg env with ⟨e, h6⟩ | ⟨a6, h6, hn6⟩
            · refine ⟨⟨5, ?_⟩, ?_⟩
              · unfold backupKafkaCmdRun
                rw [h1, h2, h3, h4, h5, h6]
                simp [seqRun, writtenNames, hn1, hn2, hn3, hn4, hn5, canonicalMemberNames]
              · intro hok
                unfold backupKafkaCmdRun at hok
                rw [h1, h2, h3, h4, h5, h6] at hok
                simp [seqRun] at hok
            · refine ⟨⟨6, ?_⟩, fun _ => ?_⟩ <;>
              · unfold backupKafkaCmdRun
                rw [h1, h2, h3, h4, h5, h6]
                simp [seqRun, writtenNames, hn1, hn2, hn3, hn4, hn5, hn6,
                  canonicalMemberNames]

/-- C3, amended: every backup run's member names form a prefix of the
fixed canonical order kafka.yaml, pools.yaml, ca-secrets.yaml,
topics.yaml, users.yaml, user-secrets.yaml (so a failing step aborts the
run before any later member is written), and every successful run writes
exactly those six members, each exactly once, in that order.  Contrary
to the claim, no backup configuration can skip the CA-secret or
user-secret steps: the backup command attempts all six steps
unconditionally, and the skip flags exist only on the restore command
(where they are never read). -/
theorem backup_writes_canonical_members :
    (∀ (cfg : BackuperCfg) (env : BackupEnv),
       ∃ k, writtenNames (backupKafkaCmdRun cfg env).1 = canonicalMemberNames.take k) ∧
    (∀ (cfg : BackuperCfg) (env : BackupEnv),
       (backupKafkaCmdRun cfg env).2 = .ok →
       writtenNames (backupKafkaCmdRun cfg env).1 = canonicalMemberNames) :=
  ⟨fun cfg env => (backupRun_characterization cfg env).1,
   fun cfg env => (backupRun_characterization cfg env).2⟩

/-- C3, counterexample: the CA-secret and user-secret steps are not
skippable by configuration.  Under an environment where every platform
call succeeds, every backuper configuration — the whole configuration
space of the backup path — still writes both "ca-secrets.yaml" and
"user-secrets.yaml". -/
theorem backup_secrets_not_skippable :
    ¬ ∃ cfg : BackuperCfg,
        "ca-secrets.yaml" ∉ writtenNames (backupKafkaCmdRun cfg envBackupOk).1 ∨
        "user-secrets.yaml" ∉ writtenNames (backupKafkaCmdRun cfg envBackupOk).1 := by
  rintro ⟨cfg, h | h⟩ <;>
    exact h (by simp [backupKafkaCmdRun, seqRun, BackupKafka, BackupKafkaNodePools,
      BackupCaSecrets, BackupKafkaTopics, BackupKafkaUsers, BackupUserSecrets,
      envBackupOk, writtenNames, memberNameOf])

/-- C3, witness: the amended theorem's success clause applied to a
concrete all-success environment: the run writes exactly the six
canonical members in order. -/
theorem backup_writes_canonical_members_witness :
    writtenNames (backupKafkaCmdRun cfgB envBackupOk).1 = canonicalMemberNames :=
  backup_writes_canonical_members.2 cfgB envBackupOk (by decide)

/-- C8: when a file already exists at the backup path, NewBackuper fails
with an error, returns no backup object, and leaves the file system —
in particular the pre-existing file's contents — unchanged
(exclusive-create, never overwrite). -/
theorem NewBackuper_exclusive_create :
    ∀ (flags : BackuperFlags) (clients : Except Err String) (fs : FileSys),
      fileAt fs (backupFileNameOf flags) = true →
      (∀ cfg, (NewBackuper flags clients fs).1 ≠ .ok cfg) ∧
      (NewBackuper flags clients fs).2 = fs := by
  intro flags clients fs hex
  by_cases hname : flags.name = ""
  · exact ⟨fun cfg => by simp [NewBackuper, hname], by simp [NewBackuper, hname]⟩
  · cases hc : clients with
    | error e =>
        exact ⟨fun cfg => by simp [NewBackuper, hname, hc], by simp [NewBackuper, hname, hc]⟩
    | ok nspace =>
        constructor
        · intro cfg
          simp [NewBackuper, hname, hc, openFileExclCreate, hex]
        · simp [NewBackuper, hname, hc, openFileExclCreate, hex]

/-- C8, witness: the exclusive-create theorem applied to a concrete file
system that already holds "backup.gz": the constructor fails and the
file's contents are untouched. -/
theorem NewBackuper_exclusive_create_witness :
    (∀ cfg, (NewBackuper flagsW (.ok "kafka") fsWithBackup).1 ≠ .ok cfg) ∧
    (NewBackuper flagsW (.ok "kafka") fsWithBackup).2 = fsWithBackup :=
  NewBackuper_exclusive_create flagsW (.ok "kafka") fsWithBackup (by decide)

/-- C10: in the backup path, metadata cleansing is applied exactly when
the boolean read from the `--skip-metadata-cleansing` flag is true — the
flag's effect is inverted relative to its name and registered
description.  NewBackuper stores the skip flag's value unchanged in the
field that gates cleansing; with the flag false (its default) the
primary resource and the node-pool list are written uncleansed, and with
it true they are written cleansed. -/
theorem cleansing_applied_iff_skip_flag :
    (∀ (flags : BackuperFlags) (clients : Except Err String) (fs : FileSys)
       (cfg : BackuperCfg) (fs' : FileSys),
       NewBackuper flags clients fs = (.ok cfg, fs') →
       cfg.metadataCleansing = flags.skipMetadataCleansing) ∧
    (∀ (cfg : BackuperCfg) (env : BackupEnv) (k : Kafka),
       env.getKafka = .ok k → env.writeKafka = .ok () →
       (BackupKafka cfg env).1 =
         [.wroteKafka (if cfg.metadataCleansing then
             { k with metadata := cleanseMetadata k.metadata } else k)]) ∧
    (∀ (cfg : BackuperCfg) (env : BackupEnv) (items : List PlainResource),
       env.listNodePools = .ok items → env.writeNodePools = .ok () →
       (BackupKafkaNodePools cfg env).1 =
         [.wroteNodePools (if cfg.metadataCleansing then cleanseItems items else items)]) := by
  refine ⟨?_, ?_, ?_⟩
  · intro flags clients fs cfg fs' h
    by_cases hname : flags.name = ""
    · simp [NewBackuper, hname] at h
    · cases hc : clients with
      | error e => simp [NewBackuper, hname, hc] at h
      | ok nspace =>
          rw [NewBackuper.eq_def, if_neg hname, hc] at h
          cases ho : openFileExclCreate fs (backupFileNameOf flags) with
          | error e => simp [ho] at h
          | ok fs2 =>
              rw [ho] at h
              have := congrArg Prod.fst h
              simp at this
              rw [← this]
  · intro cfg env k hget hwrite
    simp [BackupKafka, hget, hwrite]
  · intro cfg env items hlist hwrite
    simp [BackupKafkaNodePools, hlist, hwrite]

/-- C10, witness: the flag theorem applied at concrete inputs.  With the
skip flag false (its default) the fetched resource is written with its
metadata untouched — its managed-fields entry survives — and with the
flag true the written copy is cleansed. -/
theorem cleansing_applied_iff_skip_flag_witness :
    (BackupKafka cfgB envBackupOk).1 = [.wroteKafka readyKafka] ∧
    (BackupKafka cfgBCleanse envBackupOk).1 =
      [.wroteKafka { readyKafka with metadata := cleanseMetadata readyKafka.metadata }] ∧
    readyKafka.metadata.managedFields = ["manager-1"] := by
  refine ⟨?_, ?_, by decide⟩
  · have h := cleansing_applied_iff_skip_flag.2.1 cfgB envBackupOk readyKafka rfl rfl
    simpa [cfgB] using h
  · have h := cleansing_applied_iff_skip_flag.2.1 cfgBCleanse envBackupOk readyKafka rfl rfl
    simpa [cfgBCleanse, cfgB] using h

/-- C7, witness: the frame theorem applied to a concrete metadata value
that populates every cleansable field: managed fields and owner
references are emptied, the last-applied-configuration annotation reads
empty, while the "keep" annotation and the resource version survive. -/
theorem cleanseMetadata_frame_witness :
    (cleanseMetadata sampleMeta).managedFields = [] ∧
    (cleanseMetadata sampleMeta).ownerReferences = [] ∧
    annotationValue lastAppliedConfigKey (cleanseMetadata sampleMeta) = "" ∧
    annotationValue "keep" (cleanseMetadata sampleMeta) = annotationValue "keep" sampleMeta ∧
    (cleanseMetadata sampleMeta).resourceVersion = sampleMeta.resourceVersion := by
  obtain ⟨h1, h2, h3, h4, h5, h6, h7, h8, h9, h10, h11, h12, h13⟩ :=
    cleanseMetadata_frame sampleMeta
  exact ⟨h1, h2, h3, h13 "keep" (by decide), h7⟩
